import Mathlib

/-!
Shallow embedding of the appneural-cli-setup service
(`src/dist/services/setup.service.d.ts` and `src/src/index.ts`).

The service is a sequential orchestration over a workspace filesystem and a
collection of external processes.  We model the filesystem as an explicit
`FSState` record (persisted config file, manifest file, internal template and
snippet sources, copies performed into the global roots, lockfiles, env
files), and external processes and the network as oracles
(`LocalEnv.exec : String → List String → Bool` for `execa` outcomes,
`LocalEnv.net : String → HttpOutcome` for HTTP GET outcomes,
byte lists for `crypto.randomBytes`).  Timestamps from `new Date()` are
passed in as parameters.  Fallible operations return `Except SetupError`
or pair the updated state with an `Option SetupError`.
-/

set_option autoImplicit false

namespace Appneural

/-- A JSON/YAML-like value as stored in a role's free-form `config` record or
in the persisted `settings` record.  The code only ever stores strings
(`stack`) and string lists (`healthChecks`), so the universal value type is
restricted to these two shapes. -/
inductive ConfigValue where
  | str (s : String)
  | strList (xs : List String)
deriving DecidableEq

/-- A JS object with string keys, modelled as an association list in key
insertion order.  Keys of a JS object are unique, so first-match lookup is
the lookup. -/
abbrev ConfigMap := List (String × ConfigValue)

/-- Reading a key of a JS object: first-match association lookup. -/
def lookupKey {α : Type} (k : String) : List (String × α) → Option α
  | [] => none
  | kv :: rest => if kv.1 = k then some kv.2 else lookupKey k rest

/-- JS object assignment `obj[k] = v`: overwrite in place when the key is
present (position kept), append otherwise. -/
def objInsert {α : Type} (k : String) (v : α) : List (String × α) → List (String × α)
  | [] => [(k, v)]
  | kv :: rest => if kv.1 = k then (kv.1, v) :: rest else kv :: objInsert k v rest

/-- JS object spread `{...a, ...b}`: keys of `a` in order with `b`'s value
when `b` also has the key, followed by the keys of `b` that are not in `a`. -/
def spreadMerge {α : Type} (a b : List (String × α)) : List (String × α) :=
  a.map (fun kv => (kv.1, (lookupKey kv.1 b).getD kv.2)) ++
    b.filter (fun kv => (lookupKey kv.1 a).isNone)

/-- `RoleShortcut` of `setup.service.d.ts`. -/
structure RoleShortcut where
  name : String
  command : String
  description : Option String
deriving DecidableEq

/-- `RoleDefinition` of `setup.service.d.ts`; every field is optional in the
TypeScript interface. -/
structure RoleDefinition where
  description : Option String
  shortcuts : Option (List RoleShortcut)
  templates : Option (List String)
  snippets : Option (List String)
  instructions : Option (List String)
  config : Option ConfigMap
deriving DecidableEq

/-- One entry of the persisted `history` list: `{ role, appliedAt }`. -/
structure HistoryEntry where
  role : String
  appliedAt : String
deriving DecidableEq

/-- `AppneuralConfig` of `setup.service.d.ts`, the shape of the persisted
`appneural.config.json`.  The `healthChecks` field is declared `string[]` in
TypeScript but is written through an unchecked cast from the role's config
record, so it is modelled with the universal value type. -/
structure AppneuralConfig where
  role : Option String
  shortcuts : Option (List RoleShortcut)
  instructions : Option (List String)
  templates : Option (List String)
  snippets : Option (List String)
  settings : Option ConfigMap
  healthChecks : Option ConfigValue
  history : Option (List HistoryEntry)
  updatedAt : Option String
deriving DecidableEq

/-- The empty JS object `{}` read when the config file is absent. -/
def emptyConfig : AppneuralConfig :=
  ⟨none, none, none, none, none, none, none, none, none⟩

/-- `RoleSetupResult` returned by `applyRoleSetup`. -/
structure RoleSetupResult where
  role : String
  shortcuts : List RoleShortcut
  templates : List String
  snippets : List String
  instructions : List String
deriving DecidableEq

/-- The two error kinds of the service: `ValidationError` (message plus
structured string context) and `AppneuralError`, plus the raw process error
that propagates uncaught from a failed `execa` invocation. -/
inductive SetupError where
  | validation (message : String) (context : List (String × String))
  | appError (message : String)
  | processError (command : String) (args : List String)
deriving DecidableEq

/-- Whether an error is a `ValidationError`. -/
def SetupError.isValidation : SetupError → Bool
  | validation _ _ => true
  | _ => false

/-- The workspace and global filesystem as seen by the service.
`globalTemplates` and `globalSnippets` record the copy operations performed
into the global roots; `ensuredDirs` records the directories created by
`ensureDir`. -/
structure FSState where
  rolesFileRoles : Option (List (String × RoleDefinition))
  configFile : Option AppneuralConfig
  internalTemplates : List String
  internalSnippets : List String
  ensuredDirs : List String
  globalTemplates : List (String × String)
  globalSnippets : List String
  pnpmLockExists : Bool
  yarnLockExists : Bool
  envExampleContent : Option String
  envFile : Option String
deriving DecidableEq

/-- Token for `GLOBAL_TEMPLATE_ROOT` (`getGlobalTemplatesDir()`). -/
def GLOBAL_TEMPLATE_ROOT : String := "globalTemplatesDir"

/-- Token for `GLOBAL_SNIPPET_ROOT` (`path.join(getGlobalConfigDir(), "snippets")`). -/
def GLOBAL_SNIPPET_ROOT : String := "globalConfigDir/snippets"

/-- `ensureDir`: create a directory if it is not already present (mkdir -p). -/
def ensureDir (dir : String) (s : FSState) : FSState :=
  if dir ∈ s.ensuredDirs then s else { s with ensuredDirs := s.ensuredDirs ++ [dir] }

/-- `DEFAULT_HEALTH_ENDPOINTS` of `setup.service.d.ts`. -/
def DEFAULT_HEALTH_ENDPOINTS : List String :=
  ["http://localhost:3000/health", "http://localhost:4000/health", "http://localhost:8080/ready"]

/-- `DEFAULT_ROLES` of `setup.service.d.ts`, in source order. -/
def DEFAULT_ROLES : List (String × RoleDefinition) :=
  [("backend-dev",
    { description := some "APPNEURAL backend focused engineer stack"
      shortcuts := some
        [{ name := "svc", command := "appneural microservice create",
           description := some "Scaffold Nest microservice" },
         { name := "repo", command := "appneural repo create",
           description := some "Create GitHub repository" }]
      templates := some ["nest-service/basic", "dto-crud/basic", "rest-api-module/core"]
      snippets := some ["database-connection"]
      instructions := some
        ["Use APPNEURAL microservice generator for each bounded context",
         "Follow the DTO CRUD template to keep transports consistent"]
      config := some
        [("stack", ConfigValue.str "nest"),
         ("healthChecks", ConfigValue.strList DEFAULT_HEALTH_ENDPOINTS)] }),
   ("frontend-dev",
    { description := some "APPNEURAL frontend experience"
      shortcuts := some
        [{ name := "ui", command := "appneural ui add",
           description := some "Add UI component" },
         { name := "page", command := "appneural generate react-page/dashboard",
           description := some "Generate React page" }]
      templates := some ["react-page/dashboard"]
      snippets := some ["apollo-client"]
      instructions := some
        ["Leverage APPNEURAL UI kit for consistent look",
         "Use the page generator for dashboards"]
      config := some [("stack", ConfigValue.str "react")] }),
   ("mobile-dev",
    { description := some "APPNEURAL mobile stack"
      shortcuts := some
        [{ name := "rn", command := "appneural new react-native-app",
           description := some "Create RN app" },
         { name := "sdk", command := "appneural sdk generate mobile",
           description := some "Generate mobile SDK" }]
      templates := some ["react-page/mobile"]
      snippets := some ["mobile-storage"]
      instructions := some
        ["Use APPNEURAL Blueprint generator for RN apps",
         "Sync native modules through SDK command"]
      config := some [("stack", ConfigValue.str "react-native")] }),
   ("fullstack-dev",
    { description := some "APPNEURAL fullstack role"
      shortcuts := some
        [{ name := "fullstack", command := "appneural new webapp",
           description := some "Create webapp" },
         { name := "svc", command := "appneural new nest-microservice",
           description := some "Create Nest service" }]
      templates := some ["nest-service/basic", "react-page/dashboard"]
      snippets := some ["fullstack-testing"]
      instructions := some
        ["Generate paired backend/frontend modules",
         "Adopt shared DTO patterns"]
      config := some [("stack", ConfigValue.str "fullstack")] }),
   ("devops",
    { description := some "APPNEURAL DevOps automation"
      shortcuts := some
        [{ name := "cloud", command := "appneural cloud init --provider aws",
           description := some "Init infra" },
         { name := "plan", command := "appneural cloud plan dev",
           description := some "Plan dev env" }]
      templates := some ["microservice-basic/base"]
      snippets := some ["cicd-pipeline"]
      instructions := some
        ["Keep infra modules in sync across envs",
         "Use the quality suite before shipping"]
      config := some
        [("stack", ConfigValue.str "devops"),
         ("healthChecks", ConfigValue.strList DEFAULT_HEALTH_ENDPOINTS)] })]

/-- `readAppneuralConfig`: the parsed config file, or `{}` when absent. -/
def readAppneuralConfig (s : FSState) : AppneuralConfig :=
  s.configFile.getD emptyConfig

/-- `writeAppneuralConfig`: overwrite the config file. -/
def writeAppneuralConfig (config : AppneuralConfig) (s : FSState) : FSState :=
  { s with configFile := some config }

/-- `loadRolesManifest`: the parsed `roles` mapping of `appneural.roles.yaml`
when the file is present and has at least one role, else `DEFAULT_ROLES`.
`rolesFileRoles = none` covers both an absent file and a parsed file without
a `roles` key. -/
def loadRolesManifest (s : FSState) : List (String × RoleDefinition) :=
  match s.rolesFileRoles with
  | none => DEFAULT_ROLES
  | some roles => if roles.length = 0 then DEFAULT_ROLES else roles

/-- The loop `for (const templateKey of definition.templates ?? [])` calling
`copyTemplateToGlobal`: each iteration checks that the internal template
source exists (else throws a `ValidationError`) and then copies it under
`roles/<role>/<templateKey>` in the global template root. -/
def copyTemplatesLoop (role : String) (keys : List String) (s : FSState) :
    FSState × Option SetupError :=
  match keys with
  | [] => (s, none)
  | templateKey :: rest =>
    if templateKey ∈ s.internalTemplates then
      copyTemplatesLoop role rest
        { s with globalTemplates := s.globalTemplates ++ [(role, templateKey)] }
    else
      (s, some (SetupError.validation "APPNEURAL role template missing"
        [("templateKey", templateKey)]))

/-- The loop `for (const snippetKey of definition.snippets ?? [])` calling
`copySnippetToGlobal`: each iteration checks that the internal snippet file
exists (else throws a `ValidationError`), ensures the destination directory
and copies the file. -/
def copySnippetsLoop (keys : List String) (s : FSState) :
    FSState × Option SetupError :=
  match keys with
  | [] => (s, none)
  | snippetKey :: rest =>
    if snippetKey ∈ s.internalSnippets then
      let s1 := ensureDir GLOBAL_SNIPPET_ROOT s
      copySnippetsLoop rest { s1 with globalSnippets := s1.globalSnippets ++ [snippetKey] }
    else
      (s, some (SetupError.validation "APPNEURAL snippet missing"
        [("snippetKey", snippetKey)]))

/-- The `nextConfig` object literal of `applyRoleSetup` (lines 259-276):
history appended, settings spread-merged, shortcuts/instructions/templates/
snippets replaced, healthChecks taken from the role config when present. -/
def nextAppneuralConfig (currentConfig : AppneuralConfig) (role : String)
    (defn : RoleDefinition) (nowHist nowUpd : String) : AppneuralConfig :=
  { role := some role
    shortcuts := some (defn.shortcuts.getD [])
    instructions := some (defn.instructions.getD [])
    templates := some (defn.templates.getD [])
    snippets := some (defn.snippets.getD [])
    settings := some (spreadMerge (currentConfig.settings.getD []) (defn.config.getD []))
    healthChecks :=
      match lookupKey "healthChecks" (defn.config.getD []) with
      | some v => some v
      | none => currentConfig.healthChecks
    history := some (currentConfig.history.getD [] ++ [{ role := role, appliedAt := nowHist }])
    updatedAt := some nowUpd }

/-- `applyRoleSetup`: look up the role in the loaded manifest (validation
error when absent), ensure the global roots, copy templates then snippets
(each may fail with a validation error), then read-modify-write the
persisted config and return the role's values.  The two `new Date()` reads
are the parameters `nowHist` (history entry) and `nowUpd` (updatedAt). -/
def applyRoleSetup (role nowHist nowUpd : String) (s : FSState) :
    FSState × Except SetupError RoleSetupResult :=
  match lookupKey role (loadRolesManifest s) with
  | none =>
    (s, Except.error (SetupError.validation "APPNEURAL role not found" [("role", role)]))
  | some defn =>
    let s1 := ensureDir GLOBAL_SNIPPET_ROOT (ensureDir GLOBAL_TEMPLATE_ROOT s)
    match copyTemplatesLoop role (defn.templates.getD []) s1 with
    | (s2, some e) => (s2, Except.error e)
    | (s2, none) =>
      match copySnippetsLoop (defn.snippets.getD []) s2 with
      | (s3, some e) => (s3, Except.error e)
      | (s3, none) =>
        let currentConfig := readAppneuralConfig s3
        let nextConfig := nextAppneuralConfig currentConfig role defn nowHist nowUpd
        let s4 := writeAppneuralConfig nextConfig s3
        (s4, Except.ok
          { role := role
            shortcuts := defn.shortcuts.getD []
            templates := defn.templates.getD []
            snippets := defn.snippets.getD []
            instructions := defn.instructions.getD [] })

/-- `PackageManager` of `setup.service.d.ts`. -/
inductive PackageManager where
  | pnpm
  | yarn
  | npm
deriving DecidableEq

/-- `DockerComposeCommand`: the `docker compose` plugin or the legacy
`docker-compose` binary. -/
inductive DockerComposeCommand where
  | docker
  | dockerCompose
deriving DecidableEq

/-- Outcome of one HTTP GET issued by `performHealthChecks`: either the
fetch resolved (with `response.ok` and `response.status`), or it rejected
(transport error or the 4-second abort). -/
inductive HttpOutcome where
  | success (ok : Bool) (status : Nat)
  | failure
deriving DecidableEq

/-- One entry of the health-check result list:
`{ url, healthy, status? }`. -/
structure HealthCheckEntry where
  url : String
  healthy : Bool
  status : Option Nat
deriving DecidableEq

/-- The external world of the local-environment flow: `exec` gives the
success/failure of each `execa(command, args)` invocation, `net` the outcome
of each HTTP GET, and the byte lists the output of `crypto.randomBytes`. -/
structure LocalEnv where
  exec : String → List String → Bool
  net : String → HttpOutcome
  jwtBytes : List Nat
  encBytes : List Nat

/-- One entry of `REQUIRED_TOOLS`. -/
structure ToolSpec where
  name : String
  args : List String
  required : Bool

/-- `REQUIRED_TOOLS` of `setup.service.d.ts`, in source order. -/
def REQUIRED_TOOLS : List ToolSpec :=
  [{ name := "node", args := ["--version"], required := true },
   { name := "npm", args := ["--version"], required := true },
   { name := "pnpm", args := ["--version"], required := false },
   { name := "yarn", args := ["--version"], required := false },
   { name := "docker", args := ["--version"], required := true }]

/-- `isCommandAvailable`: try the command, `true` on success, `false` on any
error.  The source defaults `args` to `["--version"]`; callers here pass the
arguments explicitly. -/
def isCommandAvailable (env : LocalEnv) (command : String) (args : List String) : Bool :=
  env.exec command args

/-- The tool-verification loop of `runLocalEnvironmentSetup`: the first
missing required tool aborts with an `AppneuralError`; missing optional
tools only log a warning. -/
def verifyTools (env : LocalEnv) : List ToolSpec → Except SetupError Unit
  | [] => Except.ok ()
  | tool :: rest =>
    if !isCommandAvailable env tool.name tool.args && tool.required then
      Except.error (SetupError.appError
        ("APPNEURAL requires " ++ tool.name ++ " to be installed"))
    else verifyTools env rest

/-- `verifyDockerCompose`: try `docker compose version`, fall back to
`docker-compose --version`; if both fail the process error propagates. -/
def verifyDockerCompose (env : LocalEnv) : Except SetupError DockerComposeCommand :=
  if env.exec "docker" ["compose", "version"] then Except.ok DockerComposeCommand.docker
  else if env.exec "docker-compose" ["--version"] then Except.ok DockerComposeCommand.dockerCompose
  else Except.error (SetupError.processError "docker-compose" ["--version"])

/-- `detectPackageManager`: lockfile presence is the primary signal, binary
availability only gates the fallback to npm. -/
def detectPackageManager (s : FSState) (env : LocalEnv) : PackageManager :=
  if s.pnpmLockExists then
    if isCommandAvailable env "pnpm" ["--version"] then PackageManager.pnpm else PackageManager.npm
  else if s.yarnLockExists then
    if isCommandAvailable env "yarn" ["--version"] then PackageManager.yarn else PackageManager.npm
  else PackageManager.npm

/-- The binary invoked for a package manager. -/
def managerCommand : PackageManager → String
  | PackageManager.pnpm => "pnpm"
  | PackageManager.yarn => "yarn"
  | PackageManager.npm => "npm"

/-- `installDependencies`: run `<manager> install`; the result is whether the
invocation succeeded (a failure propagates uncaught in the source). -/
def installDependencies (env : LocalEnv) (manager : PackageManager) : Bool :=
  env.exec (managerCommand manager) ["install"]

/-- JS `String.prototype.split` with a one-character separator, over the
character list of the string.  Splitting never yields the empty list. -/
def splitChars (sep : Char) : List Char → List (List Char)
  | [] => [[]]
  | c :: rest =>
    match splitChars sep rest with
    | [] => [[c]]
    | line :: lines =>
      if c = sep then [] :: line :: lines else (c :: line) :: lines

/-- Remove the carriage return that the regex `/\r?\n/` consumes before a
newline, if present. -/
def dropTrailingCR (line : List Char) : List Char :=
  match line.reverse with
  | c :: rest => if c = '\r' then rest.reverse else line
  | [] => line

/-- Drop leading whitespace characters. -/
def dropWhileWhitespace : List Char → List Char
  | [] => []
  | c :: rest => if c.isWhitespace then dropWhileWhitespace rest else c :: rest

/-- JS `String.prototype.trim`: whitespace removed from both ends. -/
def trimChars (line : List Char) : List Char :=
  (dropWhileWhitespace (dropWhileWhitespace line).reverse).reverse

/-- JS `line.startsWith("#")`. -/
def startsWithHash : List Char → Bool
  | [] => false
  | c :: _ => c = '#'

/-- The split on `/\r?\n/`: split at every newline, then remove the carriage
return the regex consumed before it. -/
def splitEnvLines (content : String) : List (List Char) :=
  (splitChars '\n' content.toList).map dropTrailingCR

/-- One kept line of `parseEnv`: split on `=`, the first part is the key and
the remaining parts re-joined with `=` are the value. -/
def parseEnvLine (line : List Char) : String × String :=
  match splitChars '=' line with
  | [] => ("", "")
  | key :: rest => (String.mk key, String.mk (List.intercalate ['='] rest))

/-- `parseEnv`: split into lines, trim, drop blank and `#`-prefixed lines,
then assign each `KEY=VALUE` pair into the result object in order. -/
def parseEnv (content : String) : List (String × String) :=
  ((splitEnvLines content).map trimChars
    |>.filter (fun line => !line.isEmpty && !startsWithHash line))
    |>.foldl (fun result line => objInsert (parseEnvLine line).1 (parseEnvLine line).2 result) []

/-- `serializeEnv`: `KEY=VALUE` lines joined with `os.EOL`. -/
def serializeEnv (env : List (String × String)) (eol : String) : String :=
  String.intercalate eol (env.map (fun kv => kv.1 ++ "=" ++ kv.2))

/-- `os.EOL` on the POSIX platforms the CLI targets. -/
def osEOL : String := "\n"

/-- The lowercase hex digit for `n < 16`. -/
def hexDigit (n : Nat) : Char :=
  if n < 10 then Char.ofNat (48 + n) else Char.ofNat (87 + n)

/-- `Buffer.toString("hex")`: two lowercase hex digits per byte. -/
def bytesToHexChars : List Nat → List Char
  | [] => []
  | b :: rest => hexDigit (b % 256 / 16) :: hexDigit (b % 256 % 16) :: bytesToHexChars rest

/-- `createSecret`: `crypto.randomBytes(len).toString("hex").slice(0, len * 2)`,
with the random source modelled as the supplied byte list. -/
def createSecret (bytes : List Nat) (len : Nat) : String :=
  String.mk ((bytesToHexChars (bytes.take len)).take (len * 2))

/-- `generateEnvFile`: skipped (`false`, nothing written) when `.env.example`
is absent; otherwise parse the example, assign `JWT_SECRET` and
`ENCRYPTION_KEY`, and serialize the result as the new `.env` content. -/
def generateEnvFile (exampleContent : Option String) (jwtBytes encBytes : List Nat) :
    Bool × Option String :=
  match exampleContent with
  | none => (false, none)
  | some exampleText =>
    let parsed := parseEnv exampleText
    let parsed := objInsert "JWT_SECRET" (createSecret jwtBytes 32) parsed
    let parsed := objInsert "ENCRYPTION_KEY" (createSecret encBytes 32) parsed
    (true, some (serializeEnv parsed osEOL))

/-- `runScriptIfPresent`: run the script through the detected manager; any
failure is caught and reported as `false`. -/
def runScriptIfPresent (env : LocalEnv) (manager : PackageManager) (script : String) : Bool :=
  match manager with
  | PackageManager.pnpm => env.exec "pnpm" ["run", script, "--if-present"]
  | PackageManager.yarn => env.exec "yarn" ["run", script]
  | PackageManager.npm => env.exec "npm" ["run", script, "--if-present"]

/-- `startDockerServices`: bring up `db`, `redis`, `mq` detached through the
selected compose variant; a failed invocation propagates. -/
def startDockerServices (env : LocalEnv) (composeCommand : DockerComposeCommand) :
    Except SetupError (List String) :=
  match composeCommand with
  | DockerComposeCommand.docker =>
    if env.exec "docker" ["compose", "up", "-d", "db", "redis", "mq"] then
      Except.ok ["db", "redis", "mq"]
    else Except.error (SetupError.processError "docker" ["compose", "up", "-d", "db", "redis", "mq"])
  | DockerComposeCommand.dockerCompose =>
    if env.exec "docker-compose" ["up", "-d", "db", "redis", "mq"] then
      Except.ok ["db", "redis", "mq"]
    else Except.error (SetupError.processError "docker-compose" ["up", "-d", "db", "redis", "mq"])

/-- JS truthiness of `value.length` for the two value shapes. -/
def ConfigValue.lengthTruthy : ConfigValue → Bool
  | ConfigValue.str s => s.length != 0
  | ConfigValue.strList xs => xs.length != 0

/-- `for (const url of value)`: iterating a string list yields its elements;
iterating a string (the unchecked-cast case) yields its characters as
one-character strings. -/
def ConfigValue.iterateStrings : ConfigValue → List String
  | ConfigValue.str s => s.toList.map (fun c => String.mk [c])
  | ConfigValue.strList xs => xs

/-- The endpoint selection of `performHealthChecks`:
`config.healthChecks?.length ? config.healthChecks : DEFAULT_HEALTH_ENDPOINTS`. -/
def healthCheckEndpoints (s : FSState) : List String :=
  match (readAppneuralConfig s).healthChecks with
  | some v => if v.lengthTruthy then v.iterateStrings else DEFAULT_HEALTH_ENDPOINTS
  | none => DEFAULT_HEALTH_ENDPOINTS

/-- One iteration of the health-check loop: on a resolved fetch push
`{ url, healthy: response.ok, status: response.status }`, on a rejected
fetch push `{ url, healthy: false }`. -/
def checkEndpoint (net : String → HttpOutcome) (url : String) : HealthCheckEntry :=
  match net url with
  | HttpOutcome.success ok status => { url := url, healthy := ok, status := some status }
  | HttpOutcome.failure => { url := url, healthy := false, status := none }

/-- `performHealthChecks`: probe each selected endpoint in order and collect
the entries. -/
def performHealthChecks (s : FSState) (net : String → HttpOutcome) : List HealthCheckEntry :=
  (healthCheckEndpoints s).map (checkEndpoint net)

/-- `LocalSetupResult` of `setup.service.d.ts`. -/
structure LocalSetupResult where
  packageManager : PackageManager
  envGenerated : Bool
  dockerServices : List String
  migrationsExecuted : Bool
  seedersExecuted : Bool
  healthChecks : List HealthCheckEntry
deriving DecidableEq

/-- `runLocalEnvironmentSetup`: verify tools, detect compose variant and
package manager, install dependencies, generate `.env`, start services, run
the `migrate` and `seed` scripts (non-fatally) and perform health checks. -/
def runLocalEnvironmentSetup (s : FSState) (env : LocalEnv) :
    FSState × Except SetupError LocalSetupResult :=
  match verifyTools env REQUIRED_TOOLS with
  | Except.error e => (s, Except.error e)
  | Except.ok _ =>
    match verifyDockerCompose env with
    | Except.error e => (s, Except.error e)
    | Except.ok composeExecutor =>
      let manager := detectPackageManager s env
      if !installDependencies env manager then
        (s, Except.error (SetupError.processError (managerCommand manager) ["install"]))
      else
        let envResult := generateEnvFile s.envExampleContent env.jwtBytes env.encBytes
        let s1 := match envResult.2 with
          | some content => { s with envFile := some content }
          | none => s
        match startDockerServices env composeExecutor with
        | Except.error e => (s1, Except.error e)
        | Except.ok services =>
          let migrationsExecuted := runScriptIfPresent env manager "migrate"
          let seedersExecuted := runScriptIfPresent env manager "seed"
          let healthChecks := performHealthChecks s1 env.net
          (s1, Except.ok
            { packageManager := manager
              envGenerated := envResult.1
              dockerServices := services
              migrationsExecuted := migrationsExecuted
              seedersExecuted := seedersExecuted
              healthChecks := healthChecks })

/-! Specification-side definitions used to state the verified properties. -/

/-- The entries of the persisted history list (empty when the config file is
absent or has no history). -/
def historyEntries (s : FSState) : List HistoryEntry :=
  (readAppneuralConfig s).history.getD []

/-- Apply a sequence of role setups, each invocation given as
`(role, nowHist, nowUpd)`; the Boolean records whether every invocation
succeeded (a failure stops the sequence, as an uncaught error would). -/
def applyRoleSequence : List (String × String × String) → FSState → FSState × Bool
  | [], s => (s, true)
  | inv :: rest, s =>
    match applyRoleSetup inv.1 inv.2.1 inv.2.2 s with
    | (s1, Except.ok _) => applyRoleSequence rest s1
    | (s1, Except.error _) => (s1, false)

/-- `merged` is the shallow union of `older` and `newer` with `newer`'s keys
taking precedence on conflicting keys. -/
def isShallowUnionOf (merged older newer : ConfigMap) : Prop :=
  ∀ k, lookupKey k merged = ((lookupKey k newer).orElse (fun _ => lookupKey k older))

/-- A lowercase hexadecimal digit. -/
def isHexDigitChar (c : Char) : Bool :=
  c.isDigit || ("a".get 0 ≤ c && c ≤ "f".get 0)

/-- Every character of the string is a lowercase hexadecimal digit. -/
def isHexString (s : String) : Bool :=
  s.toList.all isHexDigitChar

/-! Concrete sample data used by the witnesses. -/

/-- A workspace in which every template directory referenced by the default
manifest exists under the internal template root. -/
def sampleInternalTemplates : List String :=
  ["nest-service/basic", "dto-crud/basic", "rest-api-module/core",
   "react-page/dashboard", "react-page/mobile", "microservice-basic/base"]

/-- A workspace in which every snippet file referenced by the default
manifest exists under the internal snippet root. -/
def sampleInternalSnippets : List String :=
  ["database-connection", "apollo-client", "mobile-storage",
   "fullstack-testing", "cicd-pipeline"]

/-- A fresh workspace: no manifest file, no config file, all default
internal sources present, nothing copied yet. -/
def freshWorkspace : FSState :=
  { rolesFileRoles := none
    configFile := none
    internalTemplates := sampleInternalTemplates
    internalSnippets := sampleInternalSnippets
    ensuredDirs := []
    globalTemplates := []
    globalSnippets := []
    pnpmLockExists := false
    yarnLockExists := false
    envExampleContent := none
    envFile := none }

/-- A workspace whose internal template root is empty, so every template
copy fails. -/
def brokenWorkspace : FSState :=
  { freshWorkspace with internalTemplates := [] }

/-- A fallback role definition for total lookups in witnesses. -/
def noRole : RoleDefinition :=
  ⟨none, none, none, none, none, none⟩

/-- The definition of a role of the default manifest (total lookup). -/
def defnOf (role : String) : RoleDefinition :=
  (lookupKey role DEFAULT_ROLES).getD noRole

/-- The `RoleSetupResult` that a successful `applyRoleSetup` of a default
role returns. -/
def roleResultOf (role : String) : RoleSetupResult :=
  { role := role
    shortcuts := (defnOf role).shortcuts.getD []
    templates := (defnOf role).templates.getD []
    snippets := (defnOf role).snippets.getD []
    instructions := (defnOf role).instructions.getD [] }

/-- A fresh workspace with a pnpm lockfile. -/
def pnpmWorkspace : FSState :=
  { freshWorkspace with pnpmLockExists := true }

/-- An environment in which every external invocation succeeds. -/
def allOkEnv : LocalEnv :=
  { exec := fun _ _ => true
    net := fun _ => HttpOutcome.failure
    jwtBytes := []
    encBytes := [] }

/-- An environment in which every external invocation succeeds except the
`npm run migrate --if-present` script run. -/
def migrateFailEnv : LocalEnv :=
  { exec := fun command args =>
      if command = "npm" ∧ args = ["run", "migrate", "--if-present"] then false else true
    net := fun _ => HttpOutcome.failure
    jwtBytes := []
    encBytes := [] }

/-- A workspace whose persisted config lists two health-check endpoints. -/
def twoEndpointWorkspace : FSState :=
  { freshWorkspace with
    configFile := some { emptyConfig with
      healthChecks := some (ConfigValue.strList
        ["http://one.test/health", "http://two.test/health"]) } }

/-- A network in which the first sample endpoint answers HTTP 200 and every
other request fails (for instance by timeout). -/
def sampleNet : String → HttpOutcome :=
  fun url =>
    if url = "http://one.test/health" then HttpOutcome.success true 200
    else HttpOutcome.failure

/-! Lemmas about association-list lookup and the JS object spread. -/

@[simp]
theorem lookupKey_nil {α : Type} (k : String) : lookupKey k ([] : List (String × α)) = none :=
  rfl

@[simp]
theorem lookupKey_cons {α : Type} (k : String) (kv : String × α) (rest : List (String × α)) :
    lookupKey k (kv :: rest) = if kv.1 = k then some kv.2 else lookupKey k rest :=
  rfl

theorem lookupKey_append {α : Type} (k : String) (xs ys : List (String × α)) :
    lookupKey k (xs ++ ys) = (lookupKey k xs).orElse (fun _ => lookupKey k ys) := by
  induction xs with
  | nil => simp [Option.orElse]
  | cons kv rest ih =>
    by_cases h : kv.1 = k <;> simp [h, ih, Option.orElse]

theorem lookupKey_map_merge {α : Type} (k : String) (a b : List (String × α)) :
    lookupKey k (a.map (fun kv => (kv.1, (lookupKey kv.1 b).getD kv.2))) =
      (lookupKey k a).map (fun v => (lookupKey k b).getD v) := by
  induction a with
  | nil => simp
  | cons kv rest ih =>
    by_cases h : kv.1 = k
    · subst h; simp
    · simp [h, ih]

theorem lookupKey_filter_key {α : Type} (k : String) (p : String → Bool)
    (b : List (String × α)) :
    lookupKey k (b.filter (fun kv => p kv.1)) = if p k then lookupKey k b else none := by
  induction b with
  | nil => simp
  | cons kv rest ih =>
    by_cases hk : kv.1 = k
    · subst hk
      by_cases hp : p kv.1 <;> simp [hp, List.filter_cons, ih]
    · by_cases hp : p kv.1 <;> simp [hp, hk, List.filter_cons, ih]

theorem lookupKey_spreadMerge {α : Type} (k : String) (a b : List (String × α)) :
    lookupKey k (spreadMerge a b) = (lookupKey k b).orElse (fun _ => lookupKey k a) := by
  rw [spreadMerge, lookupKey_append, lookupKey_map_merge,
    lookupKey_filter_key k (fun k0 => (lookupKey k0 a).isNone) b]
  cases ha : lookupKey k a <;> cases hb : lookupKey k b <;>
    simp [ha, hb, Option.orElse]

@[simp]
theorem spreadMerge_nil_left {α : Type} (b : List (String × α)) :
    spreadMerge ([] : List (String × α)) b = b := by
  simp [spreadMerge, Option.isNone]

/-! Lemmas about the filesystem effects of the role-setup helpers. -/

theorem ensureDir_fields (dir : String) (s : FSState) :
    (ensureDir dir s).configFile = s.configFile ∧
    (ensureDir dir s).rolesFileRoles = s.rolesFileRoles ∧
    (ensureDir dir s).internalTemplates = s.internalTemplates ∧
    (ensureDir dir s).internalSnippets = s.internalSnippets ∧
    (ensureDir dir s).globalTemplates = s.globalTemplates ∧
    (ensureDir dir s).globalSnippets = s.globalSnippets := by
  unfold ensureDir
  split <;> simp

theorem copyTemplatesLoop_preserves (role : String) (keys : List String) (s : FSState) :
    ((copyTemplatesLoop role keys s).1).configFile = s.configFile ∧
    ((copyTemplatesLoop role keys s).1).rolesFileRoles = s.rolesFileRoles ∧
    ((copyTemplatesLoop role keys s).1).internalTemplates = s.internalTemplates ∧
    ((copyTemplatesLoop role keys s).1).internalSnippets = s.internalSnippets ∧
    ((copyTemplatesLoop role keys s).1).globalSnippets = s.globalSnippets ∧
    ∃ copied, ((copyTemplatesLoop role keys s).1).globalTemplates =
      s.globalTemplates ++ copied := by
  induction keys generalizing s with
  | nil => exact ⟨rfl, rfl, rfl, rfl, rfl, [], by simp [copyTemplatesLoop]⟩
  | cons k ks ih =>
    by_cases hk : k ∈ s.internalTemplates
    · have hstep : copyTemplatesLoop role (k :: ks) s =
          copyTemplatesLoop role ks
            { s with globalTemplates := s.globalTemplates ++ [(role, k)] } := by
        simp [copyTemplatesLoop, hk]
      obtain ⟨h1, h2, h3, h4, h5, copied, h6⟩ :=
        ih { s with globalTemplates := s.globalTemplates ++ [(role, k)] }
      rw [hstep]
      exact ⟨h1, h2, h3, h4, h5, (role, k) :: copied, by simp [h6]⟩
    · have hstep : copyTemplatesLoop role (k :: ks) s =
          (s, some (SetupError.validation "APPNEURAL role template missing"
            [("templateKey", k)])) := by
        simp [copyTemplatesLoop, hk]
      rw [hstep]
      exact ⟨rfl, rfl, rfl, rfl, rfl, [], by simp⟩

theorem copySnippetsLoop_preserves (keys : List String) (s : FSState) :
    ((copySnippetsLoop keys s).1).configFile = s.configFile ∧
    ((copySnippetsLoop keys s).1).rolesFileRoles = s.rolesFileRoles ∧
    ((copySnippetsLoop keys s).1).internalTemplates = s.internalTemplates ∧
    ((copySnippetsLoop keys s).1).internalSnippets = s.internalSnippets ∧
    ((copySnippetsLoop keys s).1).globalTemplates = s.globalTemplates ∧
    ∃ copied, ((copySnippetsLoop keys s).1).globalSnippets =
      s.globalSnippets ++ copied := by
  induction keys generalizing s with
  | nil => exact ⟨rfl, rfl, rfl, rfl, rfl, [], by simp [copySnippetsLoop]⟩
  | cons k ks ih =>
    by_cases hk : k ∈ s.internalSnippets
    · have hstep : copySnippetsLoop (k :: ks) s =
          copySnippetsLoop ks
            { ensureDir GLOBAL_SNIPPET_ROOT s with
              globalSnippets := (ensureDir GLOBAL_SNIPPET_ROOT s).globalSnippets ++ [k] } := by
        simp [copySnippetsLoop, hk]
      obtain ⟨e1, e2, e3, e4, e5, e6⟩ := ensureDir_fields GLOBAL_SNIPPET_ROOT s
      obtain ⟨h1, h2, h3, h4, h5, copied, h6⟩ :=
        ih { ensureDir GLOBAL_SNIPPET_ROOT s with
          globalSnippets := (ensureDir GLOBAL_SNIPPET_ROOT s).globalSnippets ++ [k] }
      rw [hstep]
      refine ⟨?_, ?_, ?_, ?_, ?_, k :: copied, ?_⟩
      · rw [h1]; exact e1
      · rw [h2]; exact e2
      · rw [h3]; exact e3
      · rw [h4]; exact e4
      · rw [h5]; exact e5
      · rw [h6]; simp [e6]
    · have hstep : copySnippetsLoop (k :: ks) s =
          (s, some (SetupError.validation "APPNEURAL snippet missing"
            [("snippetKey", k)])) := by
        simp [copySnippetsLoop, hk]
      rw [hstep]
      exact ⟨rfl, rfl, rfl, rfl, rfl, [], by simp⟩

theorem copyTemplatesLoop_snd_none_of_all (role : String) (keys : List String) (s : FSState)
    (h : ∀ k ∈ keys, k ∈ s.internalTemplates) :
    (copyTemplatesLoop role keys s).2 = none := by
  induction keys generalizing s with
  | nil => rfl
  | cons k ks ih =>
    have hk : k ∈ s.internalTemplates := h k (List.mem_cons_self k ks)
    simp only [copyTemplatesLoop, hk, if_pos]
    exact ih _ (fun k0 hk0 => h k0 (List.mem_cons_of_mem k hk0))

theorem copySnippetsLoop_snd_none_of_all (keys : List String) (s : FSState)
    (h : ∀ k ∈ keys, k ∈ s.internalSnippets) :
    (copySnippetsLoop keys s).2 = none := by
  induction keys generalizing s with
  | nil => rfl
  | cons k ks ih =>
    have hk : k ∈ s.internalSnippets := h k (List.mem_cons_self k ks)
    simp only [copySnippetsLoop, hk, if_pos]
    refine ih _ (fun k0 hk0 => ?_)
    have := (ensureDir_fields GLOBAL_SNIPPET_ROOT s).2.2.2.1
    show k0 ∈ (ensureDir GLOBAL_SNIPPET_ROOT s).internalSnippets
    rw [this]
    exact h k0 (List.mem_cons_of_mem k hk0)

theorem copyTemplatesLoop_all_of_snd_none (role : String) (keys : List String) (s : FSState)
    (h : (copyTemplatesLoop role keys s).2 = none) :
    ∀ k ∈ keys, k ∈ s.internalTemplates := by
  induction keys generalizing s with
  | nil => intro k hk; cases hk
  | cons k ks ih =>
    by_cases hk : k ∈ s.internalTemplates
    · simp only [copyTemplatesLoop, hk, if_pos] at h
      intro k0 hk0
      rcases List.mem_cons.mp hk0 with h0 | h0
      · rw [h0]; exact hk
      · exact ih _ h k0 h0
    · simp [copyTemplatesLoop, hk] at h

theorem copySnippetsLoop_all_of_snd_none (keys : List String) (s : FSState)
    (h : (copySnippetsLoop keys s).2 = none) :
    ∀ k ∈ keys, k ∈ s.internalSnippets := by
  induction keys generalizing s with
  | nil => intro k hk; cases hk
  | cons k ks ih =>
    by_cases hk : k ∈ s.internalSnippets
    · simp only [copySnippetsLoop, hk, if_pos] at h
      intro k0 hk0
      rcases List.mem_cons.mp hk0 with h0 | h0
      · rw [h0]; exact hk
      · have hall := ih _ h k0 h0
        rw [(ensureDir_fields GLOBAL_SNIPPET_ROOT s).2.2.2.1] at hall
        exact hall
    · simp [copySnippetsLoop, hk] at h

theorem copyTemplatesLoop_snd_validation (role : String) (keys : List String) (s : FSState)
    (e : SetupError) (h : (copyTemplatesLoop role keys s).2 = some e) :
    e.isValidation = true := by
  induction keys generalizing s with
  | nil => cases h
  | cons k ks ih =>
    by_cases hk : k ∈ s.internalTemplates
    · simp only [copyTemplatesLoop, hk, if_pos] at h
      exact ih _ h
    · simp [copyTemplatesLoop, hk] at h
      rw [← h]
      rfl

theorem copySnippetsLoop_snd_validation (keys : List String) (s : FSState)
    (e : SetupError) (h : (copySnippetsLoop keys s).2 = some e) :
    e.isValidation = true := by
  induction keys generalizing s with
  | nil => cases h
  | cons k ks ih =>
    by_cases hk : k ∈ s.internalSnippets
    · simp only [copySnippetsLoop, hk, if_pos] at h
      exact ih _ h
    · simp [copySnippetsLoop, hk] at h
      rw [← h]
      rfl

/-! Lemmas about `applyRoleSetup` as a whole. -/

theorem applyRoleSetup_not_found (role nowHist nowUpd : String) (s : FSState)
    (h : lookupKey role (loadRolesManifest s) = none) :
    applyRoleSetup role nowHist nowUpd s =
      (s, Except.error (SetupError.validation "APPNEURAL role not found" [("role", role)])) := by
  simp [applyRoleSetup, h]

theorem applyRoleSetup_ok_inv (role nowHist nowUpd : String) (s s1 : FSState)
    (res : RoleSetupResult)
    (h : applyRoleSetup role nowHist nowUpd s = (s1, Except.ok res)) :
    ∃ defn, lookupKey role (loadRolesManifest s) = some defn ∧
      res = { role := role
              shortcuts := defn.shortcuts.getD []
              templates := defn.templates.getD []
              snippets := defn.snippets.getD []
              instructions := defn.instructions.getD [] } ∧
      s1.configFile =
        some (nextAppneuralConfig (readAppneuralConfig s) role defn nowHist nowUpd) ∧
      s1.rolesFileRoles = s.rolesFileRoles ∧
      s1.internalTemplates = s.internalTemplates ∧
      s1.internalSnippets = s.internalSnippets := by
  cases hl : lookupKey role (loadRolesManifest s) with
  | none =>
    rw [applyRoleSetup_not_found role nowHist nowUpd s hl] at h
    cases h
  | some defn =>
    refine ⟨defn, rfl, ?_⟩
    simp only [applyRoleSetup, hl] at h
    rcases hT : copyTemplatesLoop role (defn.templates.getD [])
        (ensureDir GLOBAL_SNIPPET_ROOT (ensureDir GLOBAL_TEMPLATE_ROOT s)) with ⟨sT, oT⟩
    rw [hT] at h
    cases oT with
    | some e => cases h
    | none =>
      dsimp only at h
      rcases hS : copySnippetsLoop (defn.snippets.getD []) sT with ⟨sS, oS⟩
      rw [hS] at h
      cases oS with
      | some e => cases h
      | none =>
        obtain ⟨hside, hres⟩ := Prod.mk.injEq .. ▸ h
        have hresv := hres
        injection hresv with hresv
        have eT := copyTemplatesLoop_preserves role (defn.templates.getD [])
          (ensureDir GLOBAL_SNIPPET_ROOT (ensureDir GLOBAL_TEMPLATE_ROOT s))
        have eS := copySnippetsLoop_preserves (defn.snippets.getD []) sT
        rw [hT] at eT
        rw [hS] at eS
        obtain ⟨eD1, eD2, eD3, eD4, _, _⟩ :=
          ensureDir_fields GLOBAL_TEMPLATE_ROOT s
        obtain ⟨eE1, eE2, eE3, eE4, _, _⟩ :=
          ensureDir_fields GLOBAL_SNIPPET_ROOT (ensureDir GLOBAL_TEMPLATE_ROOT s)
        have hcfg : sS.configFile = s.configFile := by
          rw [eS.1, eT.1, eE1, eD1]
        have hread : readAppneuralConfig sS = readAppneuralConfig s := by
          unfold readAppneuralConfig
          rw [hcfg]
        refine ⟨hresv.symm, ?_, ?_, ?_, ?_⟩
        · rw [← hside]
          show (writeAppneuralConfig _ sS).configFile = _
          unfold writeAppneuralConfig
          rw [hread]
        · rw [← hside]
          show sS.rolesFileRoles = s.rolesFileRoles
          rw [eS.2.1, eT.2.1, eE2, eD2]
        · rw [← hside]
          show sS.internalTemplates = s.internalTemplates
          rw [eS.2.2.1, eT.2.2.1, eE3, eD3]
        · rw [← hside]
          show sS.internalSnippets = s.internalSnippets
          rw [eS.2.2.2.1, eT.2.2.2.1, eE4, eD4]

theorem applyRoleSetup_snd_ok (role nowHist nowUpd : String) (s : FSState)
    (defn : RoleDefinition)
    (hd : lookupKey role (loadRolesManifest s) = some defn)
    (ht : ∀ t ∈ defn.templates.getD [], t ∈ s.internalTemplates)
    (hs : ∀ k ∈ defn.snippets.getD [], k ∈ s.internalSnippets) :
    (applyRoleSetup role nowHist nowUpd s).2 = Except.ok
      { role := role
        shortcuts := defn.shortcuts.getD []
        templates := defn.templates.getD []
        snippets := defn.snippets.getD []
        instructions := defn.instructions.getD [] } := by
  obtain ⟨eD1, eD2, eD3, eD4, _, _⟩ := ensureDir_fields GLOBAL_TEMPLATE_ROOT s
  obtain ⟨eE1, eE2, eE3, eE4, _, _⟩ :=
    ensureDir_fields GLOBAL_SNIPPET_ROOT (ensureDir GLOBAL_TEMPLATE_ROOT s)
  simp only [applyRoleSetup, hd]
  rcases hT : copyTemplatesLoop role (defn.templates.getD [])
      (ensureDir GLOBAL_SNIPPET_ROOT (ensureDir GLOBAL_TEMPLATE_ROOT s)) with ⟨sT, oT⟩
  have hTnone : oT = none := by
    have := copyTemplatesLoop_snd_none_of_all role (defn.templates.getD [])
      (ensureDir GLOBAL_SNIPPET_ROOT (ensureDir GLOBAL_TEMPLATE_ROOT s))
      (by rw [eE3, eD3]; exact ht)
    rw [hT] at this
    exact this
  subst hTnone
  have eT := copyTemplatesLoop_preserves role (defn.templates.getD [])
    (ensureDir GLOBAL_SNIPPET_ROOT (ensureDir GLOBAL_TEMPLATE_ROOT s))
  rw [hT] at eT
  rcases hS : copySnippetsLoop (defn.snippets.getD []) sT with ⟨sS, oS⟩
  have hSnone : oS = none := by
    have := copySnippetsLoop_snd_none_of_all (defn.snippets.getD []) sT
      (by rw [eT.2.2.2.1, eE4, eD4]; exact hs)
    rw [hS] at this
    exact this
  subst hSnone
  dsimp only
  rw [hS]

theorem applyRoleSetup_history_step (role nowHist nowUpd : String) (s s1 : FSState)
    (res : RoleSetupResult)
    (h : applyRoleSetup role nowHist nowUpd s = (s1, Except.ok res)) :
    historyEntries s1 = historyEntries s ++ [{ role := role, appliedAt := nowHist }] := by
  obtain ⟨defn, _, _, hcfg, _, _, _⟩ := applyRoleSetup_ok_inv role nowHist nowUpd s s1 res h
  unfold historyEntries readAppneuralConfig
  rw [hcfg]
  rfl

theorem applyRoleSequence_history (invs : List (String × String × String)) (s : FSState)
    (h : (applyRoleSequence invs s).2 = true) :
    historyEntries (applyRoleSequence invs s).1 =
      historyEntries s ++ invs.map (fun inv => { role := inv.1, appliedAt := inv.2.1 }) := by
  induction invs generalizing s with
  | nil => simp [applyRoleSequence]
  | cons inv rest ih =>
    simp only [applyRoleSequence] at h ⊢
    rcases happ : applyRoleSetup inv.1 inv.2.1 inv.2.2 s with ⟨s1, r⟩
    simp only [happ] at h ⊢
    cases r with
    | error e => cases h
    | ok res =>
      dsimp only at h ⊢
      rw [ih s1 h, applyRoleSetup_history_step inv.1 inv.2.1 inv.2.2 s s1 res happ]
      simp

/-- C1: applying role A and then role B (both present in the loaded
manifest, both successful, starting from empty persisted settings) leaves
the persisted settings equal to the shallow union of A's config and B's
config with B's keys taking precedence, and leaves the persisted shortcuts,
templates, snippets and instructions exactly equal to B's values. -/
theorem roles_sequential_settings_union
    (s s1 s2 : FSState) (A B n1 n2 n3 n4 : String) (dA dB : RoleDefinition)
    (rA rB : RoleSetupResult)
    (h0 : (readAppneuralConfig s).settings.getD [] = [])
    (hA : lookupKey A (loadRolesManifest s) = some dA)
    (hB : lookupKey B (loadRolesManifest s) = some dB)
    (h1 : applyRoleSetup A n1 n2 s = (s1, Except.ok rA))
    (h2 : applyRoleSetup B n3 n4 s1 = (s2, Except.ok rB)) :
    ∃ cfg, s2.configFile = some cfg ∧
      isShallowUnionOf (cfg.settings.getD []) (dA.config.getD []) (dB.config.getD []) ∧
      cfg.shortcuts = some (dB.shortcuts.getD []) ∧
      cfg.templates = some (dB.templates.getD []) ∧
      cfg.snippets = some (dB.snippets.getD []) ∧
      cfg.instructions = some (dB.instructions.getD []) := by
  obtain ⟨dA', hA', _, hcfg1, hroles1, _, _⟩ := applyRoleSetup_ok_inv A n1 n2 s s1 rA h1
  rw [hA] at hA'
  obtain rfl : dA = dA' := Option.some.inj hA'
  obtain ⟨dB', hB', _, hcfg2, _, _, _⟩ := applyRoleSetup_ok_inv B n3 n4 s1 s2 rB h2
  have hman : loadRolesManifest s1 = loadRolesManifest s := by
    unfold loadRolesManifest
    rw [hroles1]
  rw [hman, hB] at hB'
  obtain rfl : dB = dB' := Option.some.inj hB'
  have hread1 : readAppneuralConfig s1 = nextAppneuralConfig (readAppneuralConfig s) A dA n1 n2 := by
    unfold readAppneuralConfig
    rw [hcfg1]
    rfl
  have hset1 : (readAppneuralConfig s1).settings.getD [] = dA.config.getD [] := by
    rw [hread1]
    show (spreadMerge ((readAppneuralConfig s).settings.getD []) (dA.config.getD [])) = _
    rw [h0, spreadMerge_nil_left]
  refine ⟨nextAppneuralConfig (readAppneuralConfig s1) B dB n3 n4, hcfg2, ?_, rfl, rfl, rfl, rfl⟩
  intro k
  show lookupKey k (spreadMerge ((readAppneuralConfig s1).settings.getD []) (dB.config.getD [])) = _
  rw [hset1, lookupKey_spreadMerge]

theorem roles_sequential_settings_union_witness :
    ∃ cfg, ((applyRoleSetup "frontend-dev" "t3" "t4"
        (applyRoleSetup "backend-dev" "t1" "t2" freshWorkspace).1).1).configFile = some cfg ∧
      isShallowUnionOf (cfg.settings.getD []) ((defnOf "backend-dev").config.getD [])
        ((defnOf "frontend-dev").config.getD []) ∧
      cfg.shortcuts = some ((defnOf "frontend-dev").shortcuts.getD []) ∧
      cfg.templates = some ((defnOf "frontend-dev").templates.getD []) ∧
      cfg.snippets = some ((defnOf "frontend-dev").snippets.getD []) ∧
      cfg.instructions = some ((defnOf "frontend-dev").instructions.getD []) := by
  exact roles_sequential_settings_union freshWorkspace
    (applyRoleSetup "backend-dev" "t1" "t2" freshWorkspace).1
    (applyRoleSetup "frontend-dev" "t3" "t4"
      (applyRoleSetup "backend-dev" "t1" "t2" freshWorkspace).1).1
    "backend-dev" "frontend-dev" "t1" "t2" "t3" "t4"
    (defnOf "backend-dev") (defnOf "frontend-dev")
    (roleResultOf "backend-dev") (roleResultOf "frontend-dev")
    rfl rfl rfl rfl rfl

/-- C2: the persisted history is strictly append-only: starting from an
absent or empty history, a sequence of N successful `applyRoleSetup`
invocations leaves a history of length exactly N whose entries record the
roles in invocation order. -/
theorem history_append_only (invs : List (String × String × String)) (s : FSState)
    (h0 : historyEntries s = [])
    (hok : (applyRoleSequence invs s).2 = true) :
    historyEntries (applyRoleSequence invs s).1 =
      invs.map (fun inv => { role := inv.1, appliedAt := inv.2.1 }) ∧
    (historyEntries (applyRoleSequence invs s).1).length = invs.length ∧
    (historyEntries (applyRoleSequence invs s).1).map HistoryEntry.role =
      invs.map (fun inv => inv.1) := by
  have hmain := applyRoleSequence_history invs s hok
  rw [h0, List.nil_append] at hmain
  refine ⟨hmain, ?_, ?_⟩
  · rw [hmain, List.length_map]
  · rw [hmain, List.map_map]
    rfl

theorem history_append_only_witness :
    historyEntries (applyRoleSequence
        [("backend-dev", "t1", "t2"), ("devops", "t3", "t4")] freshWorkspace).1 =
      [{ role := "backend-dev", appliedAt := "t1" }, { role := "devops", appliedAt := "t3" }] ∧
    (historyEntries (applyRoleSequence
        [("backend-dev", "t1", "t2"), ("devops", "t3", "t4")] freshWorkspace).1).length = 2 ∧
    (historyEntries (applyRoleSequence
        [("backend-dev", "t1", "t2"), ("devops", "t3", "t4")] freshWorkspace).1).map
      HistoryEntry.role = ["backend-dev", "devops"] := by
  exact history_append_only
    [("backend-dev", "t1", "t2"), ("devops", "t3", "t4")] freshWorkspace rfl rfl

/-- C3: for every role of the built-in default manifest (with the manifest
file absent and the role's internal template and snippet sources present),
`applyRoleSetup` succeeds and returns shortcuts, templates, snippets and
instructions exactly equal to the role's definition in the default
manifest. -/
theorem default_role_identity (role n1 n2 : String) (s : FSState) (defn : RoleDefinition)
    (hm : s.rolesFileRoles = none)
    (hd : lookupKey role DEFAULT_ROLES = some defn)
    (ht : ∀ t ∈ defn.templates.getD [], t ∈ s.internalTemplates)
    (hs : ∀ k ∈ defn.snippets.getD [], k ∈ s.internalSnippets) :
    (applyRoleSetup role n1 n2 s).2 = Except.ok
      { role := role
        shortcuts := defn.shortcuts.getD []
        templates := defn.templates.getD []
        snippets := defn.snippets.getD []
        instructions := defn.instructions.getD [] } := by
  have hd' : lookupKey role (loadRolesManifest s) = some defn := by
    unfold loadRolesManifest
    rw [hm]
    exact hd
  exact applyRoleSetup_snd_ok role n1 n2 s defn hd' ht hs

theorem default_role_identity_witness :
    (applyRoleSetup "devops" "t1" "t2" freshWorkspace).2 =
      Except.ok (roleResultOf "devops") := by
  exact default_role_identity "devops" "t1" "t2" freshWorkspace (defnOf "devops")
    rfl rfl (by decide) (by decide)

/-- C4: `applyRoleSetup` with a role that is not a key of the loaded
manifest fails with a validation error and leaves the filesystem state
completely unchanged (no config write, no template or snippet copy, no
directory creation). -/
theorem unknown_role_no_writes (role n1 n2 : String) (s : FSState)
    (h : lookupKey role (loadRolesManifest s) = none) :
    applyRoleSetup role n1 n2 s =
      (s, Except.error (SetupError.validation "APPNEURAL role not found" [("role", role)])) ∧
    (SetupError.validation "APPNEURAL role not found" [("role", role)]).isValidation = true := by
  exact ⟨applyRoleSetup_not_found role n1 n2 s h, rfl⟩

theorem unknown_role_no_writes_witness :
    applyRoleSetup "qa-engineer" "t1" "t2" freshWorkspace =
      (freshWorkspace, Except.error (SetupError.validation "APPNEURAL role not found"
        [("role", "qa-engineer")])) ∧
    (SetupError.validation "APPNEURAL role not found"
      [("role", "qa-engineer")]).isValidation = true := by
  exact unknown_role_no_writes "qa-engineer" "t1" "t2" freshWorkspace rfl

/-- C5: during `applyRoleSetup` of a role present in the manifest, a missing
template source directory or snippet source file makes the operation fail
with a validation error before the persisted config is read or written (the
config file is exactly as before), while the template and snippet copies
performed before the failing entry are kept (append-only, no rollback). -/
theorem missing_source_aborts_before_persist (role n1 n2 : String) (s : FSState)
    (defn : RoleDefinition)
    (hd : lookupKey role (loadRolesManifest s) = some defn)
    (hfail : (∃ t ∈ defn.templates.getD [], t ∉ s.internalTemplates) ∨
      (∃ k ∈ defn.snippets.getD [], k ∉ s.internalSnippets)) :
    ∃ e, (applyRoleSetup role n1 n2 s).2 = Except.error e ∧
      e.isValidation = true ∧
      ((applyRoleSetup role n1 n2 s).1).configFile = s.configFile ∧
      (∃ copiedT, ((applyRoleSetup role n1 n2 s).1).globalTemplates =
        s.globalTemplates ++ copiedT) ∧
      (∃ copiedS, ((applyRoleSetup role n1 n2 s).1).globalSnippets =
        s.globalSnippets ++ copiedS) := by
  obtain ⟨eD1, eD2, eD3, eD4, eD5, eD6⟩ := ensureDir_fields GLOBAL_TEMPLATE_ROOT s
  obtain ⟨eE1, eE2, eE3, eE4, eE5, eE6⟩ :=
    ensureDir_fields GLOBAL_SNIPPET_ROOT (ensureDir GLOBAL_TEMPLATE_ROOT s)
  simp only [applyRoleSetup, hd]
  rcases hT : copyTemplatesLoop role (defn.templates.getD [])
      (ensureDir GLOBAL_SNIPPET_ROOT (ensureDir GLOBAL_TEMPLATE_ROOT s)) with ⟨sT, oT⟩
  have eT := copyTemplatesLoop_preserves role (defn.templates.getD [])
    (ensureDir GLOBAL_SNIPPET_ROOT (ensureDir GLOBAL_TEMPLATE_ROOT s))
  rw [hT] at eT
  obtain ⟨eT1, eT2, eT3, eT4, eT5, copiedT, eT6⟩ := eT
  cases oT with
  | some e =>
    have hval : e.isValidation = true := by
      have := copyTemplatesLoop_snd_validation role (defn.templates.getD [])
        (ensureDir GLOBAL_SNIPPET_ROOT (ensureDir GLOBAL_TEMPLATE_ROOT s)) e
      rw [hT] at this
      exact this rfl
    refine ⟨e, rfl, hval, ?_, ⟨copiedT, ?_⟩, ⟨[], ?_⟩⟩
    · show sT.configFile = s.configFile
      rw [eT1, eE1, eD1]
    · show sT.globalTemplates = _
      rw [eT6, eE5, eD5]
    · show sT.globalSnippets = _
      rw [eT5, eE6, eD6, List.append_nil]
  | none =>
    dsimp only
    have hallT : ∀ t ∈ defn.templates.getD [], t ∈ s.internalTemplates := by
      intro t htmem
      have := copyTemplatesLoop_all_of_snd_none role (defn.templates.getD [])
        (ensureDir GLOBAL_SNIPPET_ROOT (ensureDir GLOBAL_TEMPLATE_ROOT s))
        (by rw [hT]) t htmem
      rw [eE3, eD3] at this
      exact this
    have hfailS : ∃ k ∈ defn.snippets.getD [], k ∉ s.internalSnippets := by
      rcases hfail with hfT | hfS
      · obtain ⟨t, htmem, htabs⟩ := hfT
        exact absurd (hallT t htmem) htabs
      · exact hfS
    rcases hS : copySnippetsLoop (defn.snippets.getD []) sT with ⟨sS, oS⟩
    have eS := copySnippetsLoop_preserves (defn.snippets.getD []) sT
    rw [hS] at eS
    obtain ⟨eS1, eS2, eS3, eS4, eS5, copiedS, eS6⟩ := eS
    cases oS with
    | none =>
      exfalso
      obtain ⟨k, hkmem, hkabs⟩ := hfailS
      have := copySnippetsLoop_all_of_snd_none (defn.snippets.getD []) sT
        (by rw [hS]) k hkmem
      rw [eT4, eE4, eD4] at this
      exact hkabs this
    | some e =>
      have hval : e.isValidation = true := by
        have := copySnippetsLoop_snd_validation (defn.snippets.getD []) sT e
        rw [hS] at this
        exact this rfl
      refine ⟨e, rfl, hval, ?_, ⟨copiedT, ?_⟩, ⟨copiedS, ?_⟩⟩
      · show sS.configFile = s.configFile
        rw [eS1, eT1, eE1, eD1]
      · show sS.globalTemplates = _
        rw [eS5, eT6, eE5, eD5]
      · show sS.globalSnippets = _
        rw [eS6, eT5, eE6, eD6]

theorem missing_source_aborts_before_persist_witness :
    ∃ e, (applyRoleSetup "backend-dev" "t1" "t2" brokenWorkspace).2 = Except.error e ∧
      e.isValidation = true ∧
      ((applyRoleSetup "backend-dev" "t1" "t2" brokenWorkspace).1).configFile = none ∧
      (∃ copiedT, ((applyRoleSetup "backend-dev" "t1" "t2" brokenWorkspace).1).globalTemplates =
        [] ++ copiedT) ∧
      (∃ copiedS, ((applyRoleSetup "backend-dev" "t1" "t2" brokenWorkspace).1).globalSnippets =
        [] ++ copiedS) := by
  exact missing_source_aborts_before_persist "backend-dev" "t1" "t2" brokenWorkspace
    (defnOf "backend-dev") rfl (Or.inl (by decide))

/-! Lemmas about secret generation. -/

theorem bytesToHexChars_length (bs : List Nat) :
    (bytesToHexChars bs).length = 2 * bs.length := by
  induction bs with
  | nil => rfl
  | cons b rest ih =>
    simp only [bytesToHexChars, List.length_cons, ih]
    omega

theorem isHexDigitChar_hexDigit (n : Nat) (h : n < 16) :
    isHexDigitChar (hexDigit n) = true := by
  interval_cases n <;> decide

theorem bytesToHexChars_hex (bs : List Nat) :
    ∀ c ∈ bytesToHexChars bs, isHexDigitChar c = true := by
  induction bs with
  | nil => intro c hc; cases hc
  | cons b rest ih =>
    intro c hc
    rcases List.mem_cons.mp hc with h0 | hc1
    · rw [h0]; exact isHexDigitChar_hexDigit _ (by omega)
    · rcases List.mem_cons.mp hc1 with h0 | hc2
      · rw [h0]; exact isHexDigitChar_hexDigit _ (by omega)
      · exact ih c hc2

theorem createSecret_length (bytes : List Nat) (h : 32 ≤ bytes.length) :
    (createSecret bytes 32).length = 64 := by
  show ((bytesToHexChars (bytes.take 32)).take (32 * 2)).length = 64
  rw [List.length_take, bytesToHexChars_length, List.length_take]
  omega

theorem createSecret_hex (bytes : List Nat) :
    isHexString (createSecret bytes 32) = true := by
  show ((bytesToHexChars (bytes.take 32)).take (32 * 2)).all isHexDigitChar = true
  rw [List.all_eq_true]
  intro c hc
  exact bytesToHexChars_hex _ c (List.take_subset _ _ hc)

/-- C6: from the example content `A=1\nB=2\n#comment\n\n` (and random byte
streams of at least 32 bytes), env generation produces a `.env` whose
entries are exactly `A=1`, `B=2`, a `JWT_SECRET` of 64 lowercase hexadecimal
characters and an `ENCRYPTION_KEY` of 64 lowercase hexadecimal characters;
no entry reproduces the comment or blank line; when `.env.example` is
absent, generation returns false and writes nothing. -/
theorem env_generation_spec (jwtBytes encBytes : List Nat)
    (hj : 32 ≤ jwtBytes.length) (he : 32 ≤ encBytes.length) :
    generateEnvFile (some "A=1\nB=2\n#comment\n\n") jwtBytes encBytes =
      (true, some (serializeEnv
        [("A", "1"), ("B", "2"),
         ("JWT_SECRET", createSecret jwtBytes 32),
         ("ENCRYPTION_KEY", createSecret encBytes 32)] osEOL)) ∧
    (createSecret jwtBytes 32).length = 64 ∧
    isHexString (createSecret jwtBytes 32) = true ∧
    (createSecret encBytes 32).length = 64 ∧
    isHexString (createSecret encBytes 32) = true ∧
    ([("A", "1"), ("B", "2"),
      ("JWT_SECRET", createSecret jwtBytes 32),
      ("ENCRYPTION_KEY", createSecret encBytes 32)].map Prod.fst =
      ["A", "B", "JWT_SECRET", "ENCRYPTION_KEY"]) ∧
    (∀ key ∈ ["A", "B", "JWT_SECRET", "ENCRYPTION_KEY"],
      key ≠ "" ∧ startsWithHash key.toList = false) ∧
    generateEnvFile none jwtBytes encBytes = (false, none) := by
  refine ⟨rfl, createSecret_length jwtBytes hj, createSecret_hex jwtBytes,
    createSecret_length encBytes he, createSecret_hex encBytes, rfl, by decide, rfl⟩

theorem env_generation_spec_witness :
    generateEnvFile (some "A=1\nB=2\n#comment\n\n") (List.range 32) (List.range 32) =
      (true, some (serializeEnv
        [("A", "1"), ("B", "2"),
         ("JWT_SECRET", createSecret (List.range 32) 32),
         ("ENCRYPTION_KEY", createSecret (List.range 32) 32)] osEOL)) ∧
    (createSecret (List.range 32) 32).length = 64 ∧
    isHexString (createSecret (List.range 32) 32) = true := by
  obtain ⟨h1, h2, h3, _, _, _, _⟩ :=
    env_generation_spec (List.range 32) (List.range 32) (by decide) (by decide)
  exact ⟨h1, h2, h3⟩

/-- C7: package-manager detection follows the lockfile-then-binary decision
table: a pnpm lockfile selects pnpm when the pnpm binary is available and
npm otherwise; else a yarn lockfile selects yarn when available and npm
otherwise; with neither lockfile the result is npm. -/
theorem detect_package_manager_table (s : FSState) (env : LocalEnv) :
    (s.pnpmLockExists = true → isCommandAvailable env "pnpm" ["--version"] = true →
      detectPackageManager s env = PackageManager.pnpm) ∧
    (s.pnpmLockExists = true → isCommandAvailable env "pnpm" ["--version"] = false →
      detectPackageManager s env = PackageManager.npm) ∧
    (s.pnpmLockExists = false → s.yarnLockExists = true →
      isCommandAvailable env "yarn" ["--version"] = true →
      detectPackageManager s env = PackageManager.yarn) ∧
    (s.pnpmLockExists = false → s.yarnLockExists = true →
      isCommandAvailable env "yarn" ["--version"] = false →
      detectPackageManager s env = PackageManager.npm) ∧
    (s.pnpmLockExists = false → s.yarnLockExists = false →
      detectPackageManager s env = PackageManager.npm) := by
  refine ⟨?_, ?_, ?_, ?_, ?_⟩
  · intro h1 h2; simp [detectPackageManager, h1, h2]
  · intro h1 h2; simp [detectPackageManager, h1, h2]
  · intro h1 h2 h3; simp [detectPackageManager, h1, h2, h3]
  · intro h1 h2 h3; simp [detectPackageManager, h1, h2, h3]
  · intro h1 h2; simp [detectPackageManager, h1, h2]

theorem detect_package_manager_table_witness :
    detectPackageManager pnpmWorkspace allOkEnv = PackageManager.pnpm := by
  exact (detect_package_manager_table pnpmWorkspace allOkEnv).1 rfl rfl

/-- C8: health-check aggregation uses the persisted non-empty healthChecks
list (else the three default localhost endpoints), preserves endpoint order,
and per endpoint records healthy = response-ok with the status on a
completed GET and healthy = false with no status on an error or timeout; in
particular a 200 endpoint followed by a timed-out endpoint yields exactly
those two entries in original order. -/
theorem health_check_aggregation (s : FSState) (net : String → HttpOutcome) :
    (∀ urls, urls ≠ [] →
      (readAppneuralConfig s).healthChecks = some (ConfigValue.strList urls) →
      performHealthChecks s net = urls.map (checkEndpoint net)) ∧
    ((readAppneuralConfig s).healthChecks = none →
      performHealthChecks s net = DEFAULT_HEALTH_ENDPOINTS.map (checkEndpoint net)) ∧
    ((readAppneuralConfig s).healthChecks = some (ConfigValue.strList []) →
      performHealthChecks s net = DEFAULT_HEALTH_ENDPOINTS.map (checkEndpoint net)) ∧
    (∀ url ok status, net url = HttpOutcome.success ok status →
      checkEndpoint net url = { url := url, healthy := ok, status := some status }) ∧
    (∀ url, net url = HttpOutcome.failure →
      checkEndpoint net url = { url := url, healthy := false, status := none }) ∧
    (∀ u1 u2, net u1 = HttpOutcome.success true 200 → net u2 = HttpOutcome.failure →
      (readAppneuralConfig s).healthChecks = some (ConfigValue.strList [u1, u2]) →
      performHealthChecks s net =
        [{ url := u1, healthy := true, status := some 200 },
         { url := u2, healthy := false, status := none }]) := by
  have hsel : ∀ urls, urls ≠ [] →
      (readAppneuralConfig s).healthChecks = some (ConfigValue.strList urls) →
      performHealthChecks s net = urls.map (checkEndpoint net) := by
    intro urls hne hcfg
    unfold performHealthChecks healthCheckEndpoints
    rw [hcfg]
    have htruthy : (ConfigValue.strList urls).lengthTruthy = true := by
      cases urls with
      | nil => exact absurd rfl hne
      | cons u rest => rfl
    dsimp only
    rw [htruthy]
    simp [ConfigValue.iterateStrings]
  refine ⟨hsel, ?_, ?_, ?_, ?_, ?_⟩
  · intro h
    unfold performHealthChecks healthCheckEndpoints
    rw [h]
  · intro h
    unfold performHealthChecks healthCheckEndpoints
    rw [h]
    rfl
  · intro url ok status h
    unfold checkEndpoint
    rw [h]
  · intro url h
    unfold checkEndpoint
    rw [h]
  · intro u1 u2 h1 h2 hcfg
    rw [hsel [u1, u2] (by simp) hcfg]
    show [checkEndpoint net u1, checkEndpoint net u2] = _
    unfold checkEndpoint
    rw [h1, h2]

theorem health_check_aggregation_witness :
    performHealthChecks twoEndpointWorkspace sampleNet =
      [{ url := "http://one.test/health", healthy := true, status := some 200 },
       { url := "http://two.test/health", healthy := false, status := none }] := by
  exact (health_check_aggregation twoEndpointWorkspace sampleNet).2.2.2.2.2
    "http://one.test/health" "http://two.test/health" rfl rfl rfl

/-- C9: when the flow reaches the script phase (tools verified, compose
variant found, install and service startup successful),
`runLocalEnvironmentSetup` returns a successful result whose
migrationsExecuted and seedersExecuted fields equal the outcomes of the
`migrate` and `seed` script runs, and whose healthChecks are computed
afterwards — so a failed `migrate` run yields migrationsExecuted = false
without aborting, and symmetrically for `seed`. -/
theorem scripts_nonfatal (s : FSState) (env : LocalEnv) (cmd : DockerComposeCommand)
    (h1 : verifyTools env REQUIRED_TOOLS = Except.ok ())
    (h2 : verifyDockerCompose env = Except.ok cmd)
    (h3 : installDependencies env (detectPackageManager s env) = true)
    (h4 : startDockerServices env cmd = Except.ok ["db", "redis", "mq"]) :
    ∃ s1 r, runLocalEnvironmentSetup s env = (s1, Except.ok r) ∧
      r.packageManager = detectPackageManager s env ∧
      r.migrationsExecuted = runScriptIfPresent env (detectPackageManager s env) "migrate" ∧
      r.seedersExecuted = runScriptIfPresent env (detectPackageManager s env) "seed" ∧
      r.healthChecks = performHealthChecks s1 env.net := by
  simp only [runLocalEnvironmentSetup, h1, h2, h3, h4, Bool.not_true, Bool.false_eq_true,
    if_false]
  exact ⟨_, _, rfl, rfl, rfl, rfl, rfl⟩

theorem scripts_nonfatal_witness :
    ∃ s1 r, runLocalEnvironmentSetup freshWorkspace migrateFailEnv = (s1, Except.ok r) ∧
      r.packageManager = PackageManager.npm ∧
      r.migrationsExecuted = false ∧
      r.seedersExecuted = true ∧
      r.healthChecks = performHealthChecks s1 migrateFailEnv.net := by
  exact scripts_nonfatal freshWorkspace migrateFailEnv DockerComposeCommand.docker
    rfl rfl rfl rfl

/-- C10: after a successful `applyRoleSetup` of a role whose config contains
a healthChecks key, the persisted config stores that value both as the
top-level healthChecks field and under settings.healthChecks, and every key
of the role's config appears in settings. -/
theorem role_config_spread_into_settings (role n1 n2 : String) (s s1 : FSState)
    (res : RoleSetupResult) (defn : RoleDefinition) (v : ConfigValue)
    (hd : lookupKey role (loadRolesManifest s) = some defn)
    (hv : lookupKey "healthChecks" (defn.config.getD []) = some v)
    (h : applyRoleSetup role n1 n2 s = (s1, Except.ok res)) :
    ∃ cfg, s1.configFile = some cfg ∧
      cfg.healthChecks = some v ∧
      lookupKey "healthChecks" (cfg.settings.getD []) = some v ∧
      ∀ k, (lookupKey k (defn.config.getD [])).isSome = true →
        (lookupKey k (cfg.settings.getD [])).isSome = true := by
  obtain ⟨defn', hd', _, hcfg, _, _, _⟩ := applyRoleSetup_ok_inv role n1 n2 s s1 res h
  rw [hd] at hd'
  obtain rfl : defn = defn' := Option.some.inj hd'
  have hsett : (nextAppneuralConfig (readAppneuralConfig s) role defn n1 n2).settings.getD [] =
      spreadMerge ((readAppneuralConfig s).settings.getD []) (defn.config.getD []) := rfl
  refine ⟨nextAppneuralConfig (readAppneuralConfig s) role defn n1 n2, hcfg, ?_, ?_, ?_⟩
  · show (match lookupKey "healthChecks" (defn.config.getD []) with
      | some v0 => some v0
      | none => (readAppneuralConfig s).healthChecks) = some v
    rw [hv]
  · rw [hsett, lookupKey_spreadMerge, hv]
    rfl
  · intro k hk
    rw [hsett, lookupKey_spreadMerge]
    rcases hbk : lookupKey k (defn.config.getD []) with _ | w
    · rw [hbk] at hk
      cases hk
    · simp [Option.orElse]

theorem role_config_spread_into_settings_witness :
    ∃ cfg, ((applyRoleSetup "backend-dev" "t1" "t2" freshWorkspace).1).configFile = some cfg ∧
      cfg.healthChecks = some (ConfigValue.strList DEFAULT_HEALTH_ENDPOINTS) ∧
      lookupKey "healthChecks" (cfg.settings.getD []) =
        some (ConfigValue.strList DEFAULT_HEALTH_ENDPOINTS) := by
  obtain ⟨cfg, h1, h2, h3, _⟩ := role_config_spread_into_settings "backend-dev" "t1" "t2"
    freshWorkspace (applyRoleSetup "backend-dev" "t1" "t2" freshWorkspace).1
    (roleResultOf "backend-dev") (defnOf "backend-dev")
    (ConfigValue.strList DEFAULT_HEALTH_ENDPOINTS) rfl rfl rfl
  exact ⟨cfg, h1, h2, h3⟩

end Appneural
